import Mathlib

/-!
A verification development for the multi-table spreadsheet-manipulation core
(`core/cell_operations.py`, `core/table_history.py`, `core/data_manager.py`,
`core/excel_agent.py`): a shallow embedding of its data model and operations,
and theorems settling the specification's claims about them.

Conventions of the embedding:
* Python `dict`s keyed by table name become association lists
  (`List (String × α)`) with lookup on the first matching key; insertion
  replaces an existing binding in place or appends a fresh one, mirroring
  `d[k] = v`.
* Cell values are modelled by `Val`: exact rationals stand in for Python
  numbers and numpy floats, with the IEEE special values NaN, +inf and
  minus-inf as explicit constructors (`pd.isna` holds exactly of `Val.na`).
* Timestamps (`datetime.now()`), on-disk I/O and logging carry no information
  relevant to any claim and are elided; snapshot entries therefore hold the
  deep-copied table data only (copies are identities on immutable values).
-/

namespace ExcelProgress

/-- A scalar cell value: a number (rationals model Python/numpy numerics),
a string, NaN/missing (`Val.na`, what `pd.isna` detects), or an IEEE
infinity as produced by float arithmetic. -/
inductive Val where
  | num (q : ℚ)
  | str (s : String)
  | na
  | inf
  | ninf
deriving DecidableEq, Repr

/-- A `pandas.DataFrame` as the store keeps it: an ordered list of column
labels (Python permits arbitrary label values, and `set_header_row` does
assign row values as labels, hence `Val`) and the rows of cell values.
A well-formed table has every row of length `cols.length`. -/
structure Table where
  cols : List Val
  rows : List (List Val)
deriving DecidableEq, Repr

/-- Python `d[k]` / `d.get(k)` on a dict modelled as an association list. -/
def dictGet {α : Type} (d : List (String × α)) (k : String) : Option α :=
  (d.find? (fun p => p.1 = k)).map (fun p => p.2)

/-- Python `k in d`. -/
def dictMem {α : Type} (d : List (String × α)) (k : String) : Bool :=
  d.any (fun p => p.1 = k)

/-- Python `d[k] = v`: replace the binding in place if the key is present,
otherwise append a new binding. -/
def dictSet {α : Type} (d : List (String × α)) (k : String) (v : α) :
    List (String × α) :=
  if dictMem d k then d.map (fun p => if p.1 = k then (k, v) else p)
  else d ++ [(k, v)]

/-- `OperationType` (the enum in `table_history.py`). -/
inductive OpType where
  | load | save | calculate | filter | sort | group | extract | insert
  | merge | update | fill | copy_column | column_calculation | set_header
  | detect_header
deriving DecidableEq, Repr

/-- `OperationRecord` (timestamp elided; parameter values as strings). -/
structure OperationRecord where
  operationType : OpType
  tableName : String
  description : String
  parameters : List (String × String)
  resultSummary : String
deriving DecidableEq, Repr

/-- `TableHistory.__init__`'s state: the bounded operation log, its limit,
the per-table snapshot stacks `_snapshot_cache`, and `_redo_stack` — which
the source initialises to `{}` (a dict keyed by table name), so it is one
shared dict, not a per-call list.  The `_undo_stack` attribute of the source
is written once and never read; it is elided here. -/
structure TableHistory where
  history : List OperationRecord
  limit : Nat
  snapshotCache : List (String × List Table)
  redoStack : List (String × List Table)
deriving DecidableEq, Repr

/-- `TableHistory(limit)`. -/
def TableHistory.init (limit : Nat) : TableHistory :=
  { history := [], limit := limit, snapshotCache := [], redoStack := [] }

/-- `TableHistory.add_operation`: append the record, evict the oldest record
once the log exceeds the limit, and — crucially — `self._redo_stack.clear()`,
which on the dict clears the redo stacks of every table. -/
def TableHistory.addOperation (th : TableHistory) (ot : OpType)
    (tn : String) (desc : String) (params : List (String × String))
    (rs : String) : TableHistory :=
  let h := th.history ++ [{ operationType := ot, tableName := tn,
                            description := desc, parameters := params,
                            resultSummary := rs }]
  let h := if th.limit < h.length then h.drop 1 else h
  { th with history := h, redoStack := [] }

/-- `TableHistory.save_snapshot`: create the cache entry if absent, append a
deep copy of the data, and drop the oldest snapshot once more than 10 are
held. -/
def TableHistory.saveSnapshot (th : TableHistory) (tn : String)
    (data : Table) : TableHistory :=
  let l := (dictGet th.snapshotCache tn).getD []
  let l := l ++ [data]
  let l := if 10 < l.length then l.drop 1 else l
  { th with snapshotCache := dictSet th.snapshotCache tn l }

/-- `TableHistory.can_undo`: the table must have a cache entry holding more
than one snapshot. -/
def TableHistory.canUndo (th : TableHistory) (tn : String) : Bool :=
  match dictGet th.snapshotCache tn with
  | none => false
  | some l => 1 < l.length

/-- `TableHistory.can_redo`: the table must have a nonempty redo stack. -/
def TableHistory.canRedo (th : TableHistory) (tn : String) : Bool :=
  match dictGet th.redoStack tn with
  | none => false
  | some l => 0 < l.length

/-- `TableHistory.undo`: pop the top snapshot onto the table's redo stack and
return the new top's data (`None` when undo is impossible). -/
def TableHistory.undo (th : TableHistory) (tn : String) :
    TableHistory × Option Table :=
  if th.canUndo tn then
    match dictGet th.snapshotCache tn with
    | none => (th, none)
    | some l =>
      let rest := l.dropLast
      let r := (dictGet th.redoStack tn).getD []
      ({ th with snapshotCache := dictSet th.snapshotCache tn rest,
                 redoStack := dictSet th.redoStack tn (r ++ l.getLast?.toList) },
       rest.getLast?)
  else (th, none)

/-- `TableHistory.redo`: pop the redo stack's top back onto the snapshot
stack and return its data (`None` when redo is impossible). -/
def TableHistory.redo (th : TableHistory) (tn : String) :
    TableHistory × Option Table :=
  if th.canRedo tn then
    match dictGet th.redoStack tn with
    | none => (th, none)
    | some r =>
      let snap := r.getLast?
      let c := (dictGet th.snapshotCache tn).getD []
      ({ th with redoStack := dictSet th.redoStack tn r.dropLast,
                 snapshotCache := dictSet th.snapshotCache tn (c ++ snap.toList) },
       snap)
  else (th, none)

/-- `chr(ord('A') + m)` for `m < 26`, written as a lookup into the
alphabet. -/
def azChar (m : Nat) : Char := "ABCDEFGHIJKLMNOPQRSTUVWXYZ".data.getD m 'A'

/-- `chr(ord('0') + m)` for `m < 10`. -/
def digChar (m : Nat) : Char := "0123456789".data.getD m '0'

/-- Python `str.upper()` on one character (ASCII case, the only one that
arises for cell references): a lowercase letter `chr(97+m)` maps to
`chr(65+m)`, everything else is unchanged. -/
def pyUpper (c : Char) : Char :=
  if 97 ≤ c.toNat ∧ c.toNat ≤ 122 then azChar (c.toNat - 97) else c

/-- The character class `[A-Z]` of the reference regex. -/
def isUpperAZ (c : Char) : Bool := decide (65 ≤ c.toNat ∧ c.toNat ≤ 90)

/-- The character class `[0-9]` (`\d` on the ASCII references at hand). -/
def isDigit09 (c : Char) : Bool := decide (48 ≤ c.toNat ∧ c.toNat ≤ 57)

/-- The column value of a letter block: the source sums
`(ord(c)-ord('A')+1) * 26**i` over the reversed string; this left fold
computes the same positional (bijective base-26) value by Horner's rule. -/
def lettersVal (cs : List Char) : Nat :=
  cs.foldl (fun acc c => acc * 26 + (c.toNat - 65 + 1)) 0

/-- `int(row_str)`: the decimal value of a digit block (Horner form). -/
def digitsVal (cs : List Char) : Nat :=
  cs.foldl (fun acc c => acc * 10 + (c.toNat - 48)) 0

/-- `CellOperations.parse_cell_reference`: uppercase the string, match it
against `^([A-Z]+)(\d+)$` — i.e. split it as the maximal nonempty `[A-Z]`
block followed by a nonempty all-digit block — and return the zero-based
pair `(row, col)`: `row` is the digit value minus one (so it can be `-1`,
hence `Int`), `col` the bijective base-26 letter value minus one. -/
def parse_cell_reference (s : String) : Option (Int × Int) :=
  let u := s.data.map pyUpper
  let letters := u.takeWhile isUpperAZ
  let rest := u.drop letters.length
  if letters.isEmpty || rest.isEmpty || !rest.all isDigit09 then none
  else some ((digitsVal rest : Int) - 1, (lettersVal letters : Int) - 1)

/-- The column-letter loop of `cell_to_excel` as a function of `temp_col`
(entered with `col + 1`): while positive — decrement, prepend
`chr(ord('A') + temp_col % 26)`, and divide by 26; so the recursive call on
the quotient builds the more-significant letters to the left. -/
def colLettersAux : Nat → List Char
  | 0 => []
  | t + 1 => colLettersAux (t / 26) ++ [azChar (t % 26)]
decreasing_by exact Nat.lt_succ_of_le (Nat.div_le_self _ _)

/-- `str(n)` for positive `n`: decimal digits, most significant first. -/
def natDigitsAux : Nat → List Char
  | 0 => []
  | n + 1 => natDigitsAux ((n + 1) / 10) ++ [digChar ((n + 1) % 10)]
decreasing_by exact Nat.div_lt_self (Nat.succ_pos _) (by norm_num)

/-- `CellOperations.cell_to_excel`: the column letters followed by the
1-based row number, `f"{col_str}{row + 1}"`. -/
def cell_to_excel (row col : Nat) : String :=
  ⟨colLettersAux (col + 1) ++ natDigitsAux (row + 1)⟩

/-- Python `str.split(sep)` for a one-character separator, over the
character list: consecutive separators yield empty parts and the empty
string yields one empty part. -/
def splitOnChar (sep : Char) : List Char → List (List Char)
  | [] => [[]]
  | c :: rest =>
    let r := splitOnChar sep rest
    if c = sep then [] :: r
    else
      match r with
      | [] => [[c]]
      | h :: t => (c :: h) :: t

/-- `CellOperations.parse_range`: split on `":"`, require exactly two parts
and that both parse as cell references. -/
def parse_range (s : String) : Option (Int × Int × Int × Int) :=
  match (splitOnChar ':' s.data).map (fun cs => parse_cell_reference ⟨cs⟩) with
  | [some (sr, sc), some (er, ec)] => some (sr, sc, er, ec)
  | _ => none

/-- `CellOperations.validate_cell_position`. -/
def validate_cell_position (row col : Int) (maxRows maxCols : Nat) : Bool :=
  decide (0 ≤ row ∧ row < (maxRows : Int) ∧ 0 ≤ col ∧ col < (maxCols : Int))

/-- `CellOperations.validate_range`. -/
def validate_range (sr sc er ec : Int) (maxRows maxCols : Nat) : Bool :=
  decide (0 ≤ sr ∧ sr < (maxRows : Int) ∧ 0 ≤ sc ∧ sc < (maxCols : Int)) &&
  decide (0 ≤ er ∧ er < (maxRows : Int) ∧ 0 ≤ ec ∧ ec < (maxCols : Int)) &&
  decide (sr ≤ er ∧ sc ≤ ec)

/-- `TableMetadata` (`table_metadata.py`), restricted to the fields the
store recomputes and the claims mention; timestamps, declared byte size and
per-column dtype strings are elided as claim-irrelevant. -/
structure TableMetadata where
  name : String
  filePath : String
  columns : List Val
  totalRows : Nat
  headerRow : Nat
  sheetName : String
deriving DecidableEq, Repr

/-- `DataManager.__init__`: the table store, its metadata, the active table,
the owned `TableHistory(limit=50)` and the last-saved-filename marker. -/
structure DataManager where
  tables : List (String × Table)
  tableMetadata : List (String × TableMetadata)
  activeTable : Option String
  history : TableHistory
  lastSavedFilename : Option String
deriving DecidableEq, Repr

/-- A fresh `DataManager()`. -/
def DataManager.init : DataManager :=
  { tables := [], tableMetadata := [], activeTable := none,
    history := TableHistory.init 50, lastSavedFilename := none }

/-- `DataManager._update_table_metadata`: recompute the metadata record from
the stored table, preserving the existing header row, file path and sheet
name when no new ones are supplied. -/
def DataManager.updateTableMetadata (dm : DataManager) (tn : String)
    (fp sn : Option String) : DataManager :=
  match dictGet dm.tables tn with
  | none => dm
  | some df =>
    let existing := dictGet dm.tableMetadata tn
    let md : TableMetadata :=
      { name := tn
        filePath := fp.getD ((existing.map (fun m => m.filePath)).getD "")
        columns := df.cols
        totalRows := df.rows.length
        headerRow := (existing.map (fun m => m.headerRow)).getD 0
        sheetName := sn.getD ((existing.map (fun m => m.sheetName)).getD "Sheet1") }
    { dm with tableMetadata := dictSet dm.tableMetadata tn md }

/-- `DataManager.save_snapshot`: delegate to the history when the table
exists. -/
def DataManager.saveSnapshot (dm : DataManager) (tn : String) : DataManager :=
  match dictGet dm.tables tn with
  | none => dm
  | some df => { dm with history := dm.history.saveSnapshot tn df }

/-- `DataManager.set_cell_value`: table lookup, reference parse, bounds
check, then `df.iloc[row, col] = value` followed by `save_snapshot` and a
metadata refresh; any failed check returns `False` with no state change. -/
def DataManager.setCellValue (dm : DataManager) (tn : String)
    (cellRef : String) (v : Val) : DataManager × Bool :=
  match dictGet dm.tables tn with
  | none => (dm, false)
  | some df =>
    match parse_cell_reference cellRef with
    | none => (dm, false)
    | some (row, col) =>
      if validate_cell_position row col df.rows.length df.cols.length then
        let r := row.toNat
        let c := col.toNat
        let df2 : Table :=
          { df with rows := df.rows.set r ((df.rows.getD r []).set c v) }
        let dm2 := { dm with tables := dictSet dm.tables tn df2 }
        let dm3 := dm2.saveSnapshot tn
        (dm3.updateTableMetadata tn none none, true)
      else (dm, false)

/-- The numpy slice assignment `df.iloc[sr:er+1, sc:ec+1] = values.values`
performed by `set_range_values` on a homogeneous (single-block) frame:
the 2-D value array is broadcast against the target shape `(R, C)` — each of
its dimensions must equal the corresponding target extent or `1` — and on a
broadcast failure numpy raises `ValueError` before writing anything, which
the source's `except` branch turns into `False`.  Modelled from numpy's
documented broadcasting rules, since the assignment itself happens inside
pandas/numpy, not in the repository. -/
def broadcastAssign (df : Table) (sr sc er ec : Nat) (vals : Table) :
    Option Table :=
  let bigR := er + 1 - sr
  let bigC := ec + 1 - sc
  let vr := vals.rows.length
  let vc := vals.cols.length
  if (vr = bigR ∨ vr = 1) ∧ (vc = bigC ∨ vc = 1) then
    some { df with rows := (List.range df.rows.length).map (fun i =>
      let oldRow := df.rows.getD i []
      if sr ≤ i ∧ i ≤ er then
        (List.range oldRow.length).map (fun j =>
          if sc ≤ j ∧ j ≤ ec then
            let vi := if vr = 1 then 0 else i - sr
            let vj := if vc = 1 then 0 else j - sc
            (vals.rows.getD vi []).getD vj Val.na
          else oldRow.getD j Val.na)
      else oldRow) }
  else none

/-- `DataManager.set_range_values`: table lookup, range parse, range bounds
check, then the block assignment; a raised shape error is caught and
reported as `False` with the table unchanged.  Unlike `set_cell_value`,
no snapshot is taken — only the metadata is refreshed. -/
def DataManager.setRangeValues (dm : DataManager) (tn : String)
    (rangeRef : String) (vals : Table) : DataManager × Bool :=
  match dictGet dm.tables tn with
  | none => (dm, false)
  | some df =>
    match parse_range rangeRef with
    | none => (dm, false)
    | some (sr, sc, er, ec) =>
      if validate_range sr sc er ec df.rows.length df.cols.length then
        match broadcastAssign df sr.toNat sc.toNat er.toNat ec.toNat vals with
        | some df2 =>
          let dm2 := { dm with tables := dictSet dm.tables tn df2 }
          (dm2.updateTableMetadata tn none none, true)
        | none => (dm, false)
      else (dm, false)

/-- The deduplication loop of `set_header_row`: walk the candidate header
left to right with a `seen` set; a value already seen, missing (`pd.isna`)
or equal to the empty string is replaced by the positional placeholder
`column_{i}`, and the (possibly replaced) value is added to `seen`.
`seen` never receives a NaN (NaN is always replaced first), so Python's
NaN set-membership quirks cannot arise and plain value equality is
faithful. -/
def uniqueHeaderAux : List Val → Nat → List Val → List Val
  | [], _, _ => []
  | c :: restHdr, i, seen =>
    let c2 := if seen.contains c || c = Val.na || c = Val.str "" then
                Val.str ("column_" ++ toString i)
              else c
    c2 :: uniqueHeaderAux restHdr (i + 1) (seen ++ [c2])

/-- The deduplicated header produced by `set_header_row`. -/
def uniqueHeader (hdr : List Val) : List Val := uniqueHeaderAux hdr 0 []

/-- The structured result of `set_header_row` (`new_columns` is `[]` on the
failure branches, which return only `success` and `error`). -/
structure SetHeaderResult where
  success : Bool
  newColumns : List Val
  error : String
deriving DecidableEq, Repr

/-- `DataManager.set_header_row` for a (nonnegative) row index: bounds check
against the row count, promote row `headerRow`'s values to column labels via
the deduplication loop, and — only when `headerRow > 0` — drop all rows up
to and including it, re-indexing the rest; then refresh the metadata, record
the header row in it and append a `set_header` operation record. -/
def DataManager.setHeaderRow (dm : DataManager) (tn : String)
    (headerRow : Nat) : DataManager × SetHeaderResult :=
  match dictGet dm.tables tn with
  | none => (dm, { success := false, newColumns := [],
                   error := "table " ++ tn ++ " does not exist" })
  | some df =>
    if df.rows.length ≤ headerRow then
      (dm, { success := false, newColumns := [],
             error := "header row out of range" })
    else
      let uniq := uniqueHeader (df.rows.getD headerRow [])
      let df1 : Table := { df with cols := uniq }
      let df2 := if 0 < headerRow then
                   { df1 with rows := df1.rows.drop (headerRow + 1) }
                 else df1
      let dm2 := { dm with tables := dictSet dm.tables tn df2 }
      let dm3 := dm2.updateTableMetadata tn none none
      let dm4 := match dictGet dm3.tableMetadata tn with
        | some md =>
          let md2 := { md with headerRow := headerRow }
          { dm3 with tableMetadata := dictSet dm3.tableMetadata tn md2 }
        | none => dm3
      let dm5 := { dm4 with history :=
        (dm4.history.addOperation OpType.set_header tn "set header row"
          [("header_row", toString headerRow)] "") }
      (dm5, { success := true, newColumns := uniq, error := "" })

/-- `DataManager.can_undo` (a `None` table name resolves to the active
table). -/
def DataManager.canUndo (dm : DataManager) (tn? : Option String) : Bool :=
  match tn?.orElse (fun _ => dm.activeTable) with
  | none => false
  | some tn => dm.history.canUndo tn

/-- `DataManager.can_redo`. -/
def DataManager.canRedo (dm : DataManager) (tn? : Option String) : Bool :=
  match tn?.orElse (fun _ => dm.activeTable) with
  | none => false
  | some tn => dm.history.canRedo tn

/-- `DataManager.undo`: resolve the name, check `can_undo`, pop via the
history, install the restored data as the stored table and refresh the
metadata. -/
def DataManager.undo (dm : DataManager) (tn? : Option String) :
    DataManager × Bool :=
  match tn?.orElse (fun _ => dm.activeTable) with
  | none => (dm, false)
  | some tn =>
    if dm.canUndo (some tn) then
      let p := dm.history.undo tn
      match p.2 with
      | some data =>
        let dm2 := { dm with history := p.1,
                             tables := dictSet dm.tables tn data }
        (dm2.updateTableMetadata tn none none, true)
      | none => ({ dm with history := p.1 }, false)
    else (dm, false)

/-- `DataManager.redo`: the mirror image of `undo`. -/
def DataManager.redo (dm : DataManager) (tn? : Option String) :
    DataManager × Bool :=
  match tn?.orElse (fun _ => dm.activeTable) with
  | none => (dm, false)
  | some tn =>
    if dm.canRedo (some tn) then
      let p := dm.history.redo tn
      match p.2 with
      | some data =>
        let dm2 := { dm with history := p.1,
                             tables := dictSet dm.tables tn data }
        (dm2.updateTableMetadata tn none none, true)
      | none => ({ dm with history := p.1 }, false)
    else (dm, false)

/-- `Path(p).name`: the final component of a path. -/
def pathName (p : String) : String := (p.splitOn "/").getLastD p

/-- `DataManager.save_table`: fail if the table is unknown; otherwise write
the workbook (the write itself is external I/O, modelled as succeeding),
record the file name, refresh the modified time (elided), take a snapshot
and append a `save` operation record. -/
def DataManager.saveTable (dm : DataManager) (tn outputPath : String) :
    DataManager × Bool :=
  match dictGet dm.tables tn with
  | none => (dm, false)
  | some _ =>
    let dm2 := { dm with lastSavedFilename := some (pathName outputPath) }
    let dm3 := dm2.saveSnapshot tn
    let dm4 := { dm3 with history :=
      (dm3.history.addOperation OpType.save tn "save table"
        [("output_path", outputPath)] "") }
    (dm4, true)

/-- The structured result of the `filter_data` tool: `success`, the matching
row count, the (at most five) sample rows, and the error message of the
failure branches. -/
structure FilterResult where
  success : Bool
  rows : Nat
  sampleData : List (List Val)
  error : String
deriving DecidableEq, Repr

/-- The `filter_data` tool of `excel_agent.py`.  The free-text pandas
condition string is modelled by its meaning under `df.query`: either it
fails to compile or evaluate (`none` — the `except` branch) or it denotes a
boolean predicate on rows.  On success the tool reports
`len(filtered_df)` and `filtered_df.head(5)` (the per-cell string conversion
of NaN applied for JSON transport is elided: the sample rows are returned as
values) and writes nothing back to the store. -/
def filterData (dm : DataManager) (tn? : Option String)
    (cond : Option (List Val → Bool)) : DataManager × FilterResult :=
  match tn?.orElse (fun _ => dm.activeTable) with
  | none => (dm, { success := false, rows := 0, sampleData := [],
                   error := "no table given and none active" })
  | some tn =>
    match dictGet dm.tables tn with
    | none => (dm, { success := false, rows := 0, sampleData := [],
                     error := "table " ++ tn ++ " does not exist" })
    | some df =>
      match cond with
      | none => (dm, { success := false, rows := 0, sampleData := [],
                       error := "filter failed" })
      | some p =>
        let filtered := df.rows.filter p
        (dm, { success := true, rows := filtered.length,
               sampleData := filtered.take 5, error := "" })

/-- `pd.to_numeric(column, errors='coerce')` on one cell: numbers pass
through (as do float specials), and strings are parsed as numerals —
modelled for the nonnegative-integer literals; any other string coerces to
NaN, exactly the source's treatment of non-numeric text. -/
def toNumericCell : Val → Val
  | Val.num q => Val.num q
  | Val.na => Val.na
  | Val.inf => Val.inf
  | Val.ninf => Val.ninf
  | Val.str s =>
    if s.data ≠ [] ∧ s.data.all isDigit09 then Val.num (digitsVal s.data)
    else Val.na

/-- IEEE-754 elementwise division of two coerced cells, as numpy performs it
for `col1_data / col2_data`: NaN propagates; a nonzero number divided by
zero is a signed infinity and `0/0` is NaN; divisions involving infinities
follow IEEE (`x/inf = 0`, `inf/inf = NaN`, `inf/x = ±inf`). -/
def vdiv : Val → Val → Val
  | Val.na, _ => Val.na
  | _, Val.na => Val.na
  | Val.num a, Val.num b =>
    if b = 0 then
      if a = 0 then Val.na else if 0 < a then Val.inf else Val.ninf
    else Val.num (a / b)
  | Val.num _, Val.inf => Val.num 0
  | Val.num _, Val.ninf => Val.num 0
  | Val.inf, Val.num b => if 0 ≤ b then Val.inf else Val.ninf
  | Val.ninf, Val.num b => if 0 ≤ b then Val.ninf else Val.inf
  | Val.inf, Val.inf => Val.na
  | Val.inf, Val.ninf => Val.na
  | Val.ninf, Val.inf => Val.na
  | Val.ninf, Val.ninf => Val.na
  | Val.str _, _ => Val.na
  | _, Val.str _ => Val.na

/-- IEEE addition on coerced cells (`col1_data + col2_data`). -/
def vadd : Val → Val → Val
  | Val.na, _ => Val.na
  | _, Val.na => Val.na
  | Val.num a, Val.num b => Val.num (a + b)
  | Val.num _, Val.inf => Val.inf
  | Val.num _, Val.ninf => Val.ninf
  | Val.inf, Val.num _ => Val.inf
  | Val.ninf, Val.num _ => Val.ninf
  | Val.inf, Val.inf => Val.inf
  | Val.ninf, Val.ninf => Val.ninf
  | Val.inf, Val.ninf => Val.na
  | Val.ninf, Val.inf => Val.na
  | Val.str _, _ => Val.na
  | _, Val.str _ => Val.na

/-- IEEE subtraction on coerced cells. -/
def vsub (a b : Val) : Val :=
  vadd a (match b with
          | Val.num q => Val.num (-q)
          | Val.inf => Val.ninf
          | Val.ninf => Val.inf
          | x => x)

/-- IEEE multiplication on coerced cells (`0 * inf` is NaN). -/
def vmul : Val → Val → Val
  | Val.na, _ => Val.na
  | _, Val.na => Val.na
  | Val.num a, Val.num b => Val.num (a * b)
  | Val.num a, Val.inf =>
    if a = 0 then Val.na else if 0 < a then Val.inf else Val.ninf
  | Val.num a, Val.ninf =>
    if a = 0 then Val.na else if 0 < a then Val.ninf else Val.inf
  | Val.inf, Val.num b =>
    if b = 0 then Val.na else if 0 < b then Val.inf else Val.ninf
  | Val.ninf, Val.num b =>
    if b = 0 then Val.na else if 0 < b then Val.ninf else Val.inf
  | Val.inf, Val.inf => Val.inf
  | Val.ninf, Val.ninf => Val.inf
  | Val.inf, Val.ninf => Val.ninf
  | Val.ninf, Val.inf => Val.ninf
  | Val.str _, _ => Val.na
  | _, Val.str _ => Val.na

/-- `df[column]`: the cells of the column with the given label. -/
def getColumn (df : Table) (c : Val) : Option (List Val) :=
  match df.cols.indexOf? c with
  | none => none
  | some i => some (df.rows.map (fun r => r.getD i Val.na))

/-- `df[c] = series`: overwrite an existing column's cells in place, or
append a new column on the right. -/
def setColumn (df : Table) (c : Val) (vs : List Val) : Table :=
  match df.cols.indexOf? c with
  | some i => { df with rows := (df.rows.zip vs).map (fun p => p.1.set i p.2) }
  | none => { cols := df.cols ++ [c],
              rows := (df.rows.zip vs).map (fun p => p.1 ++ [p.2]) }

/-- The structured result of the `column_calculation` tool. -/
structure ColumnCalcResult where
  success : Bool
  rowsUpdated : Nat
  error : String
deriving DecidableEq, Repr

/-- The `column_calculation` tool of `excel_agent.py`: resolve the table,
require both operand columns, coerce each with
`pd.to_numeric(errors='coerce')`, apply the chosen elementwise operation,
and store the result as `target_column` (created if absent) in the table
written back to the store, refreshing the metadata.  The subsequent
`astype('object')` conversions change dtypes, not cell values, and are
elided. -/
def columnCalculation (dm : DataManager) (tn? : Option String)
    (operation column1 column2 targetColumn : String) :
    DataManager × ColumnCalcResult :=
  match tn?.orElse (fun _ => dm.activeTable) with
  | none => (dm, { success := false, rowsUpdated := 0,
                   error := "no table given and none active" })
  | some tn =>
    match dictGet dm.tables tn with
    | none => (dm, { success := false, rowsUpdated := 0,
                     error := "table " ++ tn ++ " does not exist" })
    | some df =>
      match getColumn df (Val.str column1), getColumn df (Val.str column2) with
      | none, _ => (dm, { success := false, rowsUpdated := 0,
                          error := "column " ++ column1 ++ " does not exist" })
      | some _, none => (dm, { success := false, rowsUpdated := 0,
                               error := "column " ++ column2 ++ " does not exist" })
      | some c1, some c2 =>
        let d1 := c1.map toNumericCell
        let d2 := c2.map toNumericCell
        let op? : Option (Val → Val → Val) :=
          if operation = "add" then some vadd
          else if operation = "subtract" then some vsub
          else if operation = "multiply" then some vmul
          else if operation = "divide" then some vdiv
          else none
        match op? with
        | none => (dm, { success := false, rowsUpdated := 0,
                         error := "unknown operation: " ++ operation })
        | some f =>
          let df2 := setColumn df (Val.str targetColumn) (List.zipWith f d1 d2)
          let dm2 := { dm with tables := dictSet dm.tables tn df2 }
          (dm2.updateTableMetadata tn none none,
           { success := true, rowsUpdated := df.rows.length, error := "" })

/-- `n` successive `DataManager.undo` calls on the same named table. -/
def undoIter (tn : String) : Nat → DataManager → DataManager
  | 0, dm => dm
  | n + 1, dm => undoIter tn n (dm.undo (some tn)).1

/-- A sequence of `TableHistory.add_operation` calls, one per record. -/
def foldAdd (th : TableHistory) (recs : List OperationRecord) : TableHistory :=
  recs.foldl
    (fun acc r => acc.addOperation r.operationType r.tableName r.description
      r.parameters r.resultSummary) th

/-- A two-column numeric table used by several concrete scenarios. -/
def numTable (a b c d : ℚ) : Table :=
  { cols := [Val.str "x", Val.str "y"],
    rows := [[Val.num a, Val.num b], [Val.num c, Val.num d]] }

/-- C1 scenario: one loaded table with an empty snapshot stack. -/
def dmC1 : DataManager :=
  { DataManager.init with tables := [("t", numTable 1 2 3 4)] }

/-- C2 scenario: table `t` currently holding `numTable 9 9 9 9`, with two
snapshots on its stack (as after a load and a snapshotting mutation). -/
def dmC2 : DataManager :=
  { DataManager.init with
    tables := [("t", numTable 9 9 9 9)],
    history := { TableHistory.init 50 with
      snapshotCache := [("t", [numTable 1 2 3 4, numTable 9 9 9 9])] } }

/-- C2 scenario after one undo: redo for `t` has become possible. -/
def dmC2a : DataManager := (dmC2.undo (some "t")).1

/-- C3 counterexample, step 0: a freshly loaded table (one snapshot). -/
def dmC3 : DataManager :=
  { DataManager.init with
    tables := [("t", numTable 1 2 3 4)],
    history := { TableHistory.init 50 with
      snapshotCache := [("t", [numTable 1 2 3 4])] } }

/-- C3 counterexample, step 1: a cell write — snapshots its result, so the
stack now has two entries and the stored table equals the top snapshot. -/
def dmC3a : DataManager := (dmC3.setCellValue "t" "A1" (Val.num 7)).1

/-- C3 counterexample, step 2: a range write — mutates the table but takes
no snapshot, so the stored table no longer equals the top snapshot. -/
def dmC3b : DataManager :=
  (dmC3a.setRangeValues "t" "B2:B2"
    (Table.mk [Val.str "y"] [[Val.num 42]])).1

/-- C3 counterexample, step 3: undo followed by redo from that state. -/
def dmC3c : DataManager := ((dmC3b.undo (some "t")).1.redo (some "t")).1

/-- C3 witness snapshot stack: three snapshots, oldest first. -/
def lC3w : List Table :=
  [numTable 1 2 3 4, numTable 9 9 9 9, numTable 5 6 7 8]

/-- C3 witness state: table `t` equal to the top of a three-snapshot
stack. -/
def dmC3w : DataManager :=
  { DataManager.init with
    tables := [("t", numTable 5 6 7 8)],
    history := { TableHistory.init 50 with
      snapshotCache := [("t", lC3w)] } }

/-- C4 scenario: the spec's header-promotion example table, with rows
`[["h1","h2"],[1,2],[3,4]]`. -/
def dmC4 : DataManager :=
  { DataManager.init with
    tables := [("t",
      { cols := [Val.str "c0", Val.str "c1"],
        rows := [[Val.str "h1", Val.str "h2"],
                 [Val.num 1, Val.num 2],
                 [Val.num 3, Val.num 4]] })] }

/-- C5 scenario: `column1 = [10, "abc", 6]`, `column2 = [2, 2, 0]`. -/
def dmC5 : DataManager :=
  { DataManager.init with
    tables := [("t",
      { cols := [Val.str "column1", Val.str "column2"],
        rows := [[Val.num 10, Val.num 2],
                 [Val.str "abc", Val.num 2],
                 [Val.num 6, Val.num 0]] })] }

/-- The C5 state after the divide `column_calculation`. -/
def dmC5r : DataManager :=
  (columnCalculation dmC5 (some "t") "divide" "column1" "column2" "result").1

/-- C7 scenario: a homogeneous 2-by-2 numeric table. -/
def dmC7 : DataManager :=
  { DataManager.init with tables := [("t", numTable 1 2 3 4)] }

/-- C7 counterexample block: one row, two columns — a shape mismatch for
the 2-by-2 range `A1:B2`, yet broadcastable. -/
def valsC7 : Table := Table.mk [Val.str "u", Val.str "v"] [[Val.num 9, Val.num 8]]

/-- C7 witness block: three rows — a non-broadcastable mismatch for
`A1:B2`. -/
def valsC7bad : Table :=
  Table.mk [Val.str "u", Val.str "v"]
    [[Val.num 9, Val.num 8], [Val.num 9, Val.num 8], [Val.num 9, Val.num 8]]

/-- C8 witness: 51 distinct operation records. -/
def recsC8 : List OperationRecord :=
  (List.range 51).map (fun i =>
    { operationType := OpType.load, tableName := toString i,
      description := "", parameters := [], resultSummary := "" })

/-- C9 scenario table: one numeric column with a single matching row. -/
def dfC9 : Table :=
  { cols := [Val.str "department"],
    rows := [[Val.str "Tech"], [Val.str "Sales"], [Val.str "Tech"]] }

/-- C9 scenario store. -/
def dmC9 : DataManager := { DataManager.init with tables := [("t", dfC9)] }

/-- C9 witness predicate: the meaning of `department == 'Tech'`. -/
def predC9 (r : List Val) : Bool := r.getD 0 Val.na = Val.str "Tech"

/-- C10 scenario: two tables, with a pending redo entry for `A` (as after an
undo on `A`). -/
def dmC10 : DataManager :=
  { DataManager.init with
    tables := [("A", numTable 1 2 3 4), ("B", numTable 5 6 7 8)],
    history := { TableHistory.init 50 with
      redoStack := [("A", [numTable 9 9 9 9])] } }

/-! ### Association-list (dict) lemmas -/

theorem dictGet_cons {α : Type} (p : String × α) (d : List (String × α)) (k : String) :
    dictGet (p :: d) k = if p.1 = k then some p.2 else dictGet d k := by
  by_cases h : p.1 = k <;> simp [dictGet, List.find?_cons, h]

theorem dictMem_cons {α : Type} (p : String × α) (d : List (String × α)) (k : String) :
    dictMem (p :: d) k = (decide (p.1 = k) || dictMem d k) := by
  simp [dictMem, List.any_cons]

theorem dictGet_dictSet_self {α : Type} (k : String) (v : α) :
    ∀ d : List (String × α), dictGet (dictSet d k v) k = some v := by
  intro d
  induction d with
  | nil => simp [dictSet, dictMem, dictGet]
  | cons p d ih =>
    by_cases h : p.1 = k
    · have hm : dictMem (p :: d) k = true := by simp [dictMem, h]
      simp only [dictSet, hm, if_true, List.map_cons, h, if_pos]
      simp [dictGet_cons]
    · by_cases hm : dictMem d k
      · have hm2 : dictMem (p :: d) k = true := by simp [dictMem_cons, hm]
        have ih2 := ih
        simp only [dictSet, hm, if_true] at ih2
        simp only [dictSet, hm2, if_true, List.map_cons, h, if_neg, ite_false]
        rw [dictGet_cons]
        simp [h, ih2]
      · have hm2 : dictMem (p :: d) k = false := by
          simp [dictMem_cons, h]
          simpa using hm
        have ih2 := ih
        simp only [dictSet, hm, Bool.false_eq_true, if_false] at ih2
        simp only [dictSet, hm2, Bool.false_eq_true, if_false, List.cons_append]
        rw [dictGet_cons]
        simp [h, ih2]

theorem dictGet_map_set {α : Type} (k k2 : String) (v : α) (hne : k2 ≠ k) :
    ∀ d : List (String × α),
      dictGet (d.map (fun p => if p.1 = k then (k, v) else p)) k2 = dictGet d k2 := by
  intro d
  induction d with
  | nil => rfl
  | cons p d ih =>
    by_cases h : p.1 = k
    · simp only [List.map_cons, h, if_pos]
      rw [dictGet_cons, dictGet_cons]
      have h1 : ¬ (k = k2) := fun hh => hne hh.symm
      have h2 : ¬ (p.1 = k2) := by rw [h]; exact h1
      simp [h1, h2, ih]
    · simp only [List.map_cons, h, if_neg, ite_false]
      rw [dictGet_cons, dictGet_cons]
      by_cases h2 : p.1 = k2 <;> simp [h2, ih]

theorem dictGet_append_single {α : Type} (k k2 : String) (v : α) (hne : k2 ≠ k) :
    ∀ d : List (String × α), dictGet (d ++ [(k, v)]) k2 = dictGet d k2 := by
  intro d
  induction d with
  | nil =>
    have h1 : ¬ (k = k2) := fun hh => hne hh.symm
    simp [dictGet, List.find?, h1]
  | cons p d ih =>
    rw [List.cons_append, dictGet_cons, dictGet_cons]
    by_cases h2 : p.1 = k2 <;> simp [h2, ih]

theorem dictGet_dictSet_ne {α : Type} (k k2 : String) (v : α) (hne : k2 ≠ k)
    (d : List (String × α)) : dictGet (dictSet d k v) k2 = dictGet d k2 := by
  unfold dictSet
  by_cases hm : dictMem d k
  · simp [hm, dictGet_map_set k k2 v hne d]
  · simp [hm, dictGet_append_single k k2 v hne d]

/-! ### Frame lemmas for the store helpers -/

theorem updateTableMetadata_tables (dm : DataManager) (tn : String)
    (fp sn : Option String) : (dm.updateTableMetadata tn fp sn).tables = dm.tables := by
  unfold DataManager.updateTableMetadata
  cases dictGet dm.tables tn <;> rfl

theorem updateTableMetadata_history (dm : DataManager) (tn : String)
    (fp sn : Option String) : (dm.updateTableMetadata tn fp sn).history = dm.history := by
  unfold DataManager.updateTableMetadata
  cases dictGet dm.tables tn <;> rfl

theorem updateTableMetadata_get (dm : DataManager) (tn : String)
    (fp sn : Option String) (df : Table) (h : dictGet dm.tables tn = some df) :
    ∃ md : TableMetadata,
      dictGet (dm.updateTableMetadata tn fp sn).tableMetadata tn = some md ∧
      md.columns = df.cols ∧ md.totalRows = df.rows.length := by
  unfold DataManager.updateTableMetadata
  rw [h]
  exact ⟨_, dictGet_dictSet_self tn _ dm.tableMetadata, rfl, rfl⟩

theorem saveSnapshot_tables (dm : DataManager) (tn : String) :
    (dm.saveSnapshot tn).tables = dm.tables := by
  unfold DataManager.saveSnapshot
  cases dictGet dm.tables tn <;> rfl

theorem saveSnapshot_cache_get (dm : DataManager) (tn : String) (df : Table)
    (h : dictGet dm.tables tn = some df) :
    dictGet (dm.saveSnapshot tn).history.snapshotCache tn =
      some (if 10 < (((dictGet dm.history.snapshotCache tn).getD []) ++ [df]).length
            then (((dictGet dm.history.snapshotCache tn).getD []) ++ [df]).drop 1
            else ((dictGet dm.history.snapshotCache tn).getD []) ++ [df]) := by
  unfold DataManager.saveSnapshot
  rw [h]
  exact dictGet_dictSet_self tn _ dm.history.snapshotCache

theorem saveSnapshot_redo (dm : DataManager) (tn : String) :
    (dm.saveSnapshot tn).history.redoStack = dm.history.redoStack := by
  unfold DataManager.saveSnapshot
  cases dictGet dm.tables tn <;> rfl

/-! ### C4: header promotion -/

/-- C4 counterexample: on the table with rows `[[h1,h2],[1,2],[3,4]]`,
`set_header_row 0` succeeds and makes the columns `[h1,h2]`, but the
remaining data rows are NOT `[[1,2],[3,4]]` — the promoted row is dropped
only when the header index is positive, so here it stays. -/
theorem C4_counterexample :
    ((dmC4.setHeaderRow "t" 0).2.success = true) ∧
    ((dmC4.setHeaderRow "t" 0).2.newColumns = [Val.str "h1", Val.str "h2"]) ∧
    ¬ ((dictGet (dmC4.setHeaderRow "t" 0).1.tables "t").map Table.rows =
        some [[Val.num 1, Val.num 2], [Val.num 3, Val.num 4]]) := by
  decide

/-- C4 (amended): `set_header_row 0` on the table with rows
`[[h1,h2],[1,2],[3,4]]` succeeds with new columns `[h1,h2]`, and since the
row index is `0` no rows are dropped: the data rows remain
`[[h1,h2],[1,2],[3,4]]`, the promoted row included — rows up to and
including the header row are dropped only when the index is positive. -/
theorem C4_header_promotion :
    ((dmC4.setHeaderRow "t" 0).2.success = true) ∧
    ((dmC4.setHeaderRow "t" 0).2.newColumns = [Val.str "h1", Val.str "h2"]) ∧
    (dictGet (dmC4.setHeaderRow "t" 0).1.tables "t" =
      some { cols := [Val.str "h1", Val.str "h2"],
             rows := [[Val.str "h1", Val.str "h2"],
                      [Val.num 1, Val.num 2],
                      [Val.num 3, Val.num 4]] }) := by
  decide

/-! ### C5: column division semantics -/

/-- C5 counterexample: dividing columns `[10, "abc", 6]` by `[2, 2, 0]`
succeeds, but the target column is NOT `[5.0, missing, missing]` — the
division of the nonzero `6` by `0` yields `+inf`, not a missing value. -/
theorem C5_counterexample :
    ((columnCalculation dmC5 (some "t") "divide" "column1" "column2" "result").2.success
      = true) ∧
    ¬ (((dictGet dmC5r.tables "t").bind (fun df => getColumn df (Val.str "result"))) =
        some [Val.num 5, Val.na, Val.na]) := by
  constructor
  · rfl
  · intro h
    have h2 : (some [Val.num ((10 : ℚ) / 2), Val.na, Val.inf] : Option (List Val)) =
        some [Val.num 5, Val.na, Val.na] := by
      rw [← h]
      rfl
    simp at h2

/-- C5 (amended): dividing columns `[10, "abc", 6]` by `[2, 2, 0]` with
`column_calculation` succeeds (reporting all 3 rows updated) and writes
`[5.0, NaN, +inf]` to the target column: the non-numeric operand coerces to
missing, which propagates, but dividing the nonzero `6` by zero produces
infinity rather than a missing value. -/
theorem C5_column_divide :
    ((columnCalculation dmC5 (some "t") "divide" "column1" "column2" "result").2 =
      { success := true, rowsUpdated := 3, error := "" }) ∧
    (((dictGet dmC5r.tables "t").bind (fun df => getColumn df (Val.str "result"))) =
      some [Val.num 5, Val.na, Val.inf]) := by
  have h : (10 : ℚ) / 2 = 5 := by norm_num
  constructor
  · rfl
  · calc ((dictGet dmC5r.tables "t").bind (fun df => getColumn df (Val.str "result")))
        = some [Val.num ((10 : ℚ) / 2), Val.na, Val.inf] := rfl
      _ = some [Val.num 5, Val.na, Val.inf] := by rw [h]

/-! ### C1: what a successful cell write does to the undo stack -/

/-- C1 counterexample: a successful `set_cell_value` does NOT leave the
table's undo-snapshot stack unchanged — here the write succeeds and the
snapshot cache differs afterwards (a snapshot of the updated table was
pushed). -/
theorem C1_counterexample :
    ((dmC1.setCellValue "t" "A1" (Val.num 99)).2 = true) ∧
    ¬ ((dmC1.setCellValue "t" "A1" (Val.num 99)).1.history.snapshotCache =
        dmC1.history.snapshotCache) := by
  decide

/-- C1 (amended): every successful `set_cell_value` refreshes the table's
metadata (recomputed from the updated table) AND pushes a deep copy of the
updated table onto that table's undo-snapshot stack, evicting the oldest
snapshot when the cap of 10 is exceeded. -/
theorem C1_set_cell_snapshots (dm : DataManager) (tn ref : String) (v : Val)
    (h : (dm.setCellValue tn ref v).2 = true) :
    ∃ df2 : Table,
      dictGet (dm.setCellValue tn ref v).1.tables tn = some df2 ∧
      (∃ md : TableMetadata,
        dictGet (dm.setCellValue tn ref v).1.tableMetadata tn = some md ∧
        md.columns = df2.cols ∧ md.totalRows = df2.rows.length) ∧
      dictGet (dm.setCellValue tn ref v).1.history.snapshotCache tn =
        some (if 10 < (((dictGet dm.history.snapshotCache tn).getD []) ++ [df2]).length
              then (((dictGet dm.history.snapshotCache tn).getD []) ++ [df2]).drop 1
              else ((dictGet dm.history.snapshotCache tn).getD []) ++ [df2]) := by
  unfold DataManager.setCellValue at h ⊢
  cases hT : dictGet dm.tables tn with
  | none => rw [hT] at h; simp at h
  | some df =>
    rw [hT] at h
    dsimp only at h ⊢
    cases hP : parse_cell_reference ref with
    | none => rw [hP] at h; simp at h
    | some rc =>
      rw [hP] at h
      obtain ⟨row, col⟩ := rc
      dsimp only at h ⊢
      by_cases hV : validate_cell_position row col df.rows.length df.cols.length = true
      · simp only [hV, if_true]
        set df2 : Table :=
          { df with rows := df.rows.set row.toNat ((df.rows.getD row.toNat []).set col.toNat v) }
          with hdf2
        set dm2 : DataManager := { dm with tables := dictSet dm.tables tn df2 } with hdm2
        have hT2 : dictGet dm2.tables tn = some df2 := dictGet_dictSet_self tn df2 dm.tables
        have hT3 : dictGet (dm2.saveSnapshot tn).tables tn = some df2 := by
          rw [saveSnapshot_tables]; exact hT2
        refine ⟨df2, ?_, ?_, ?_⟩
        · rw [updateTableMetadata_tables]
          exact hT3
        · exact updateTableMetadata_get (dm2.saveSnapshot tn) tn none none df2 hT3
        · rw [updateTableMetadata_history]
          have := saveSnapshot_cache_get dm2 tn df2 hT2
          simpa using this
      · simp [hV] at h

/-- C1 witness: the amended statement instantiated on a concrete store
(a table with an empty snapshot stack). -/
theorem C1_witness :
    ∃ df2 : Table,
      dictGet (dmC1.setCellValue "t" "A1" (Val.num 99)).1.tables "t" = some df2 ∧
      (∃ md : TableMetadata,
        dictGet (dmC1.setCellValue "t" "A1" (Val.num 99)).1.tableMetadata "t" = some md ∧
        md.columns = df2.cols ∧ md.totalRows = df2.rows.length) ∧
      dictGet (dmC1.setCellValue "t" "A1" (Val.num 99)).1.history.snapshotCache "t" =
        some (if 10 < (((dictGet dmC1.history.snapshotCache "t").getD []) ++ [df2]).length
              then (((dictGet dmC1.history.snapshotCache "t").getD []) ++ [df2]).drop 1
              else ((dictGet dmC1.history.snapshotCache "t").getD []) ++ [df2]) :=
  C1_set_cell_snapshots dmC1 "t" "A1" (Val.num 99) (by decide)

/-! ### C2: which mutations invalidate redo -/

/-- C2 counterexample: after an undo on `t`, the snapshot-producing mutation
`set_cell_value` succeeds, changes `t`'s snapshot stack (it pushes), yet
does NOT clear `t`'s redo stack: `can_redo` is still true afterwards. -/
theorem C2_counterexample :
    ((dmC2.undo (some "t")).2 = true) ∧
    (dmC2a.canRedo (some "t") = true) ∧
    ((dmC2a.setCellValue "t" "A1" (Val.num 5)).2 = true) ∧
    ¬ (dictGet (dmC2a.setCellValue "t" "A1" (Val.num 5)).1.history.snapshotCache "t" =
        dictGet dmC2a.history.snapshotCache "t") ∧
    ((dmC2a.setCellValue "t" "A1" (Val.num 5)).1.canRedo (some "t") = true) := by
  decide

/-- C2 (amended): redo is invalidated exactly by the mutations that append
an operation record: a successful `set_header_row` (which calls
`add_operation`) clears every table's redo stack, so any subsequent redo
fails; whereas a successful `set_cell_value`, though snapshot-producing,
leaves the redo stacks untouched. -/
theorem C2_redo_invalidation :
    ∀ (dm dmB : DataManager) (tn tnB ref : String) (hr : Nat) (v : Val),
      ((dm.setHeaderRow tn hr).2.success = true →
        ∀ u : String, (dm.setHeaderRow tn hr).1.history.canRedo u = false) ∧
      ((dmB.setCellValue tnB ref v).2 = true →
        (dmB.setCellValue tnB ref v).1.history.redoStack = dmB.history.redoStack) := by
  intro dm dmB tn tnB ref hr v
  constructor
  · intro hs u
    unfold DataManager.setHeaderRow at hs ⊢
    cases hT : dictGet dm.tables tn with
    | none => rw [hT] at hs; simp at hs
    | some df =>
      rw [hT] at hs
      dsimp only at hs ⊢
      by_cases hlen : df.rows.length ≤ hr
      · simp [hlen] at hs
      · simp only [hlen, if_false]
        simp [TableHistory.canRedo, TableHistory.addOperation, dictGet]
  · intro hs
    unfold DataManager.setCellValue at hs ⊢
    cases hT : dictGet dmB.tables tnB with
    | none => rw [hT] at hs
    | some df =>
      rw [hT] at hs
      dsimp only at hs ⊢
      cases hP : parse_cell_reference ref with
      | none => rw [hP] at hs
      | some rc =>
        rw [hP] at hs
        obtain ⟨row, col⟩ := rc
        dsimp only at hs ⊢
        by_cases hV : validate_cell_position row col df.rows.length df.cols.length = true
        · simp only [hV, if_true]
          rw [updateTableMetadata_history, saveSnapshot_redo]
        · simp [hV] at hs

/-- C2 witness: the amended statement instantiated — a concrete successful
`set_header_row` after which no table can redo, and a concrete successful
`set_cell_value` that leaves the redo stacks as they were. -/
theorem C2_witness :
    (∀ u : String, (dmC2.setHeaderRow "t" 0).1.history.canRedo u = false) ∧
    ((dmC2a.setCellValue "t" "A1" (Val.num 5)).1.history.redoStack =
      dmC2a.history.redoStack) :=
  ⟨(C2_redo_invalidation dmC2 dmC2a "t" "t" "A1" 0 (Val.num 5)).1 (by decide),
   (C2_redo_invalidation dmC2 dmC2a "t" "t" "A1" 0 (Val.num 5)).2 (by decide)⟩

/-! ### C7: range assignment and block shape -/

/-- C7 counterexample: assigning a 1-row-by-2-column block to the
2-by-2 range `A1:B2` of a homogeneous table is a shape mismatch, yet
`set_range_values` succeeds and mutates the table — numpy broadcasts the
single row across the range instead of raising. -/
theorem C7_counterexample :
    ((dmC7.setRangeValues "t" "A1:B2" valsC7).2 = true) ∧
    ¬ (dictGet (dmC7.setRangeValues "t" "A1:B2" valsC7).1.tables "t" =
        dictGet dmC7.tables "t") := by
  decide

/-- C7 (amended): for a loaded table and a valid in-bounds range,
`set_range_values` with a block whose shape numpy cannot broadcast to the
range's row/column extent (a dimension differing from both the extent and
1) returns failure and leaves the store unchanged; an assigned block with a
broadcastable mismatched shape (a single row or column) instead succeeds,
replicating its values across the range. -/
theorem C7_range_shape (dm : DataManager) (tn ref : String) (vals df : Table)
    (sr sc er ec : Int)
    (h1 : dictGet dm.tables tn = some df)
    (h2 : parse_range ref = some (sr, sc, er, ec))
    (h3 : validate_range sr sc er ec df.rows.length df.cols.length = true)
    (h4 : ¬ ((vals.rows.length = er.toNat + 1 - sr.toNat ∨ vals.rows.length = 1) ∧
             (vals.cols.length = ec.toNat + 1 - sc.toNat ∨ vals.cols.length = 1))) :
    dm.setRangeValues tn ref vals = (dm, false) := by
  unfold DataManager.setRangeValues
  rw [h1]
  dsimp only
  rw [h2]
  dsimp only
  rw [if_pos h3]
  unfold broadcastAssign
  dsimp only
  rw [if_neg h4]

/-- C7 witness: assigning a 3-row block to the 2-by-2 range `A1:B2` (not
broadcastable) fails and leaves the store untouched. -/
theorem C7_witness :
    dmC7.setRangeValues "t" "A1:B2" valsC7bad = (dmC7, false) :=
  C7_range_shape dmC7 "t" "A1:B2" valsC7bad (numTable 1 2 3 4) 0 0 1 1
    (by decide) (by decide) (by decide) (by decide)

/-! ### C8: the operation-log cap -/

/-- Unfolding one step of a sequence of `add_operation` calls. -/
theorem foldAdd_cons (th : TableHistory) (r : OperationRecord)
    (rs : List OperationRecord) :
    foldAdd th (r :: rs) =
      foldAdd (th.addOperation r.operationType r.tableName r.description
        r.parameters r.resultSummary) rs := rfl

/-- What `add_operation` does to the log: append, then evict the oldest
record when the limit is exceeded. -/
theorem addOperation_history_eq (th : TableHistory) (r : OperationRecord) :
    (th.addOperation r.operationType r.tableName r.description r.parameters
      r.resultSummary).history =
      if th.limit < (th.history ++ [r]).length then (th.history ++ [r]).drop 1
      else th.history ++ [r] := rfl

/-- `add_operation` never changes the configured limit. -/
theorem addOperation_limit (th : TableHistory) (r : OperationRecord) :
    (th.addOperation r.operationType r.tableName r.description r.parameters
      r.resultSummary).limit = th.limit := rfl

/-- The bounded-log invariant: folding any record sequence into a history
whose log is within its limit leaves exactly the most recent `limit`
records (the suffix of the appended stream). -/
theorem foldAdd_history (L : Nat) :
    ∀ (recs : List OperationRecord) (th : TableHistory),
      th.limit = L → th.history.length ≤ L →
      (foldAdd th recs).history =
        (th.history ++ recs).drop (th.history.length + recs.length - L) := by
  intro recs
  induction recs with
  | nil =>
    intro th hlim hlen
    simp only [foldAdd, List.foldl_nil, List.append_nil, List.length_nil,
      Nat.add_zero]
    rw [Nat.sub_eq_zero_of_le hlen, List.drop_zero]
  | cons r rs ih =>
    intro th hlim hlen
    rw [foldAdd_cons]
    by_cases hc : th.history.length < L
    · have hno : ¬ (th.limit < (th.history ++ [r]).length) := by
        rw [hlim]
        simp only [List.length_append, List.length_cons, List.length_nil]
        omega
      have hh : (th.addOperation r.operationType r.tableName r.description
          r.parameters r.resultSummary).history = th.history ++ [r] := by
        rw [addOperation_history_eq, if_neg hno]
      have ihh := ih (th.addOperation r.operationType r.tableName r.description
        r.parameters r.resultSummary)
        (by rw [addOperation_limit, hlim])
        (by rw [hh]
            simp only [List.length_append, List.length_cons, List.length_nil]
            omega)
      rw [ihh, hh]
      have hidx : (th.history ++ [r]).length + rs.length - L =
          th.history.length + (r :: rs).length - L := by
        simp only [List.length_append, List.length_cons, List.length_nil]
        omega
      rw [hidx, List.append_assoc, List.singleton_append]
    · have hL : th.history.length = L := by omega
      have hyes : th.limit < (th.history ++ [r]).length := by
        rw [hlim]
        simp only [List.length_append, List.length_cons, List.length_nil]
        omega
      have hh : (th.addOperation r.operationType r.tableName r.description
          r.parameters r.resultSummary).history = (th.history ++ [r]).drop 1 := by
        rw [addOperation_history_eq, if_pos hyes]
      have ihh := ih (th.addOperation r.operationType r.tableName r.description
        r.parameters r.resultSummary)
        (by rw [addOperation_limit, hlim])
        (by rw [hh]
            simp only [List.length_drop, List.length_append, List.length_cons,
              List.length_nil]
            omega)
      rw [ihh, hh]
      have h1 : (1 : Nat) ≤ (th.history ++ [r]).length := by
        simp only [List.length_append, List.length_cons, List.length_nil]
        omega
      rw [← List.drop_append_of_le_length h1, List.drop_drop]
      have hidx : 1 + (((th.history ++ [r]).drop 1).length + rs.length - L) =
          th.history.length + (r :: rs).length - L := by
        simp only [List.length_drop, List.length_append, List.length_cons,
          List.length_nil]
        omega
      rw [hidx, List.append_assoc, List.singleton_append]

/-- C8: appending more than the configured limit (the default 50) of
operation records to a fresh history retains exactly the most recent 50
records — the suffix of the appended sequence — with the oldest evicted
first. -/
theorem C8_history_cap (recs : List OperationRecord) (h : 50 < recs.length) :
    ((foldAdd (TableHistory.init 50) recs).history = recs.drop (recs.length - 50)) ∧
    ((foldAdd (TableHistory.init 50) recs).history.length = 50) := by
  have hh := foldAdd_history 50 recs (TableHistory.init 50) rfl
    (by simp [TableHistory.init])
  constructor
  · rw [hh]
    simp [TableHistory.init]
  · rw [hh, List.length_drop]
    simp [TableHistory.init]
    omega

/-- C8 witness: the cap theorem instantiated on a concrete sequence of 51
records — the log ends up holding exactly the last 50. -/
theorem C8_witness :
    ((foldAdd (TableHistory.init 50) recsC8).history = recsC8.drop 1) ∧
    ((foldAdd (TableHistory.init 50) recsC8).history.length = 50) := by
  have h := C8_history_cap recsC8 (by decide)
  have hl : recsC8.length = 51 := by decide
  rw [hl] at h
  simpa using h

/-! ### C9: filtering is read-only -/

/-- C9: for every store state, target table and filter condition (modelled
by its meaning under `df.query`: a row predicate, or `none` when the
expression fails to evaluate), `filter_data` leaves the store exactly as it
was and returns at most 5 sample rows; when the table exists and the
condition evaluates, it reports the exact matching row count and the first
(up to) 5 matching rows. -/
theorem C9_filter_frame (dm : DataManager) (tn? : Option String)
    (cond : Option (List Val → Bool)) :
    ((filterData dm tn? cond).1 = dm) ∧
    ((filterData dm tn? cond).2.sampleData.length ≤ 5) ∧
    (∀ (tn : String) (df : Table) (p : List Val → Bool),
      tn? = some tn → dictGet dm.tables tn = some df → cond = some p →
      (filterData dm tn? cond).2 =
        { success := true, rows := (df.rows.filter p).length,
          sampleData := (df.rows.filter p).take 5, error := "" }) := by
  refine ⟨?_, ?_, ?_⟩
  · unfold filterData
    cases h1 : tn?.orElse (fun _ => dm.activeTable) with
    | none => rfl
    | some tn =>
      dsimp only
      cases h2 : dictGet dm.tables tn with
      | none => rfl
      | some df =>
        dsimp only
        cases cond with
        | none => rfl
        | some p => rfl
  · unfold filterData
    cases h1 : tn?.orElse (fun _ => dm.activeTable) with
    | none => simp
    | some tn =>
      dsimp only
      cases h2 : dictGet dm.tables tn with
      | none => simp
      | some df =>
        dsimp only
        cases cond with
        | none => simp
        | some p =>
          dsimp only
          simp [List.length_take]
  · intro tn df p h1 h2 h3
    subst h1
    subst h3
    unfold filterData
    rw [show (some tn).orElse (fun _ => dm.activeTable) = some tn from rfl]
    dsimp only
    rw [h2]

/-! ### C10: operation records clear every redo stack -/

/-- C10: appending any operation record clears the redo stacks of every
table in the session — `add_operation` leaves no table able to redo — and
in particular a successful `save_table` on any table B makes redo fail for
every table afterwards, including an unrelated table A that had just been
undone. -/
theorem C10_cross_table_redo_clear :
    (∀ (th : TableHistory) (ot : OpType) (tn desc rs : String)
       (params : List (String × String)) (u : String),
       (th.addOperation ot tn desc params rs).canRedo u = false) ∧
    (∀ (dm : DataManager) (tB path u : String),
       (dm.saveTable tB path).2 = true →
       (dm.saveTable tB path).1.history.canRedo u = false) := by
  constructor
  · intro th ot tn desc params rs u
    simp [TableHistory.addOperation, TableHistory.canRedo, dictGet]
  · intro dm tB path u h
    unfold DataManager.saveTable at h ⊢
    cases hT : dictGet dm.tables tB with
    | none => rw [hT] at h; simp at h
    | some df =>
      dsimp only
      simp [TableHistory.addOperation, TableHistory.canRedo, dictGet]

/-- C10 witness: with a pending redo entry for table A, saving table B
succeeds and afterwards redo on A fails. -/
theorem C10_witness :
    (dmC10.history.canRedo "A" = true) ∧
    ((dmC10.saveTable "B" "out.xlsx").2 = true) ∧
    ((dmC10.saveTable "B" "out.xlsx").1.history.canRedo "A" = false) :=
  ⟨by decide, by decide,
   C10_cross_table_redo_clear.2 dmC10 "B" "out.xlsx" "A" (by decide)⟩

/-- C9 witness: the filter theorem instantiated on a concrete table and the
predicate meaning of a concrete condition string. -/
theorem C9_witness :
    ((filterData dmC9 (some "t") (some predC9)).1 = dmC9) ∧
    ((filterData dmC9 (some "t") (some predC9)).2 =
      { success := true, rows := (dfC9.rows.filter predC9).length,
        sampleData := (dfC9.rows.filter predC9).take 5, error := "" }) :=
  ⟨(C9_filter_frame dmC9 (some "t") (some predC9)).1,
   (C9_filter_frame dmC9 (some "t") (some predC9)).2.2 "t" dfC9 predC9 rfl rfl rfl⟩


/-! ### C3: undo and redo as inverses, and exhausting the undo stack -/

/-- A table with at least two snapshots can undo. -/
theorem th_canUndo_of (th : TableHistory) (tn : String) (l : List Table)
    (hC : dictGet th.snapshotCache tn = some l) (h2 : 2 ≤ l.length) :
    th.canUndo tn = true := by
  unfold TableHistory.canUndo
  rw [hC]
  simp
  omega

/-- What `TableHistory.undo` does when undo is possible: pop the top
snapshot onto the redo stack, return the new top. -/
theorem th_undo_spec (th : TableHistory) (tn : String) (l : List Table)
    (hC : dictGet th.snapshotCache tn = some l) (h2 : 2 ≤ l.length) :
    (th.undo tn).2 = l.dropLast.getLast? ∧
    dictGet (th.undo tn).1.snapshotCache tn = some l.dropLast ∧
    dictGet (th.undo tn).1.redoStack tn =
      some (((dictGet th.redoStack tn).getD []) ++ l.getLast?.toList) := by
  have hcu := th_canUndo_of th tn l hC h2
  unfold TableHistory.undo
  rw [hcu, hC]
  dsimp only
  exact ⟨rfl, dictGet_dictSet_self tn _ th.snapshotCache,
         dictGet_dictSet_self tn _ th.redoStack⟩

/-- A table with a nonempty redo stack can redo. -/
theorem th_canRedo_of (th : TableHistory) (tn : String) (r : List Table)
    (hR : dictGet th.redoStack tn = some r) (hne : r ≠ []) :
    th.canRedo tn = true := by
  unfold TableHistory.canRedo
  rw [hR]
  simp
  exact List.length_pos.mpr hne

/-- What `TableHistory.redo` does when redo is possible: pop the redo
stack's top back onto the snapshot stack and return it. -/
theorem th_redo_spec (th : TableHistory) (tn : String) (r : List Table)
    (hR : dictGet th.redoStack tn = some r) (hne : r ≠ []) :
    (th.redo tn).2 = r.getLast? ∧
    dictGet (th.redo tn).1.snapshotCache tn =
      some (((dictGet th.snapshotCache tn).getD []) ++ r.getLast?.toList) ∧
    dictGet (th.redo tn).1.redoStack tn = some r.dropLast := by
  have hcr := th_canRedo_of th tn r hR hne
  unfold TableHistory.redo
  rw [hcr, hR]
  dsimp only
  exact ⟨rfl, dictGet_dictSet_self tn _ th.snapshotCache,
         dictGet_dictSet_self tn _ th.redoStack⟩

/-- `DataManager.undo` on a table with at least two snapshots: succeeds,
installs the new top snapshot as the stored table, and moves the old top to
the redo stack. -/
theorem dm_undo_spec (dm : DataManager) (tn : String) (l : List Table)
    (hC : dictGet dm.history.snapshotCache tn = some l) (h2 : 2 ≤ l.length) :
    ∃ d0 : Table, l.dropLast.getLast? = some d0 ∧
      (dm.undo (some tn)).2 = true ∧
      dictGet (dm.undo (some tn)).1.tables tn = some d0 ∧
      dictGet (dm.undo (some tn)).1.history.snapshotCache tn = some l.dropLast ∧
      dictGet (dm.undo (some tn)).1.history.redoStack tn =
        some (((dictGet dm.history.redoStack tn).getD []) ++ l.getLast?.toList) := by
  have hne : l.dropLast ≠ [] := by
    intro hh
    have := List.length_dropLast l
    rw [hh] at this
    simp at this
    omega
  obtain ⟨d0, hd0⟩ : ∃ d0, l.dropLast.getLast? = some d0 := by
    cases hgl : l.dropLast.getLast? with
    | none => exact absurd (List.getLast?_eq_none_iff.mp hgl) hne
    | some d0 => exact ⟨d0, rfl⟩
  obtain ⟨hu2, huC, huR⟩ := th_undo_spec dm.history tn l hC h2
  have hcu : dm.canUndo (some tn) = true := by
    unfold DataManager.canUndo
    dsimp only [Option.orElse]
    exact th_canUndo_of dm.history tn l hC h2
  have hres : dm.undo (some tn) =
      (DataManager.updateTableMetadata
        { dm with
          history := (dm.history.undo tn).1,
          tables := dictSet dm.tables tn d0 }
        tn none none,
       true) := by
    unfold DataManager.undo
    dsimp only [Option.orElse]
    rw [hcu]
    try dsimp only
    rw [hu2, hd0]
    rfl
  refine ⟨d0, hd0, ?_, ?_, ?_, ?_⟩
  · rw [hres]
  · rw [hres, updateTableMetadata_tables]
    exact dictGet_dictSet_self tn d0 dm.tables
  · rw [hres, updateTableMetadata_history]
    exact huC
  · rw [hres, updateTableMetadata_history]
    exact huR

/-- `DataManager.redo` on a table with a nonempty redo stack: succeeds and
installs the popped snapshot as the stored table. -/
theorem dm_redo_spec (dm : DataManager) (tn : String) (r : List Table)
    (hR : dictGet dm.history.redoStack tn = some r) (hne : r ≠ []) :
    ∃ d0 : Table, r.getLast? = some d0 ∧
      (dm.redo (some tn)).2 = true ∧
      dictGet (dm.redo (some tn)).1.tables tn = some d0 := by
  obtain ⟨d0, hd0⟩ : ∃ d0, r.getLast? = some d0 := by
    cases hgl : r.getLast? with
    | none => exact absurd (List.getLast?_eq_none_iff.mp hgl) hne
    | some d0 => exact ⟨d0, rfl⟩
  obtain ⟨hu2, huC, huR⟩ := th_redo_spec dm.history tn r hR hne
  have hcr : dm.canRedo (some tn) = true := by
    unfold DataManager.canRedo
    dsimp only [Option.orElse]
    exact th_canRedo_of dm.history tn r hR hne
  have hres : dm.redo (some tn) =
      (DataManager.updateTableMetadata
        { dm with
          history := (dm.history.redo tn).1,
          tables := dictSet dm.tables tn d0 }
        tn none none,
       true) := by
    unfold DataManager.redo
    dsimp only [Option.orElse]
    rw [hcr]
    try dsimp only
    rw [hu2, hd0]
    rfl
  refine ⟨d0, hd0, ?_, ?_⟩
  · rw [hres]
  · rw [hres, updateTableMetadata_tables]
    exact dictGet_dictSet_self tn d0 dm.tables


/-- Dropping the last element of a list of length at least two preserves
its head and its one-element prefix. -/
theorem dropLast_head_take (l : List Table) (h : 2 ≤ l.length) :
    l.dropLast.take 1 = l.take 1 ∧ l.dropLast.head? = l.head? := by
  cases l with
  | nil => simp at h
  | cons a t =>
    cases t with
    | nil => simp at h
    | cons b t2 => exact ⟨rfl, rfl⟩

/-- Undoing `N - 1` times from a stack of `N` snapshots leaves exactly the
oldest retained snapshot, installed as the stored table. -/
theorem undoIter_spec (tn : String) :
    ∀ (k : Nat) (dm : DataManager) (l : List Table),
      dictGet dm.history.snapshotCache tn = some l → l.length = k + 2 →
      dictGet (undoIter tn (k + 1) dm).history.snapshotCache tn = some (l.take 1) ∧
      dictGet (undoIter tn (k + 1) dm).tables tn = l.head? := by
  intro k
  induction k with
  | zero =>
    intro dm l hC hlen
    obtain ⟨d0, hd0, hs, hT1, hC1, hR1⟩ := dm_undo_spec dm tn l hC (by omega)
    have hstep : undoIter tn 1 dm = (dm.undo (some tn)).1 := rfl
    rw [hstep]
    cases l with
    | nil => simp at hlen
    | cons a t =>
      cases t with
      | nil => simp at hlen
      | cons b t2 =>
        cases t2 with
        | cons c t3 => simp at hlen
        | nil =>
          simp only [List.dropLast, List.getLast?] at hd0
          constructor
          · rw [hC1]
            rfl
          · rw [hT1]
            simp at hd0
            rw [hd0]
            rfl
  | succ k ih =>
    intro dm l hC hlen
    obtain ⟨d0, hd0, hs, hT1, hC1, hR1⟩ := dm_undo_spec dm tn l hC (by omega)
    have hstep : undoIter tn (k + 1 + 1) dm =
        undoIter tn (k + 1) (dm.undo (some tn)).1 := rfl
    rw [hstep]
    have hlen2 : l.dropLast.length = k + 2 := by
      rw [List.length_dropLast]
      omega
    obtain ⟨hA, hB⟩ := ih (dm.undo (some tn)).1 l.dropLast hC1 hlen2
    obtain ⟨ht1, ht2⟩ := dropLast_head_take l (by omega)
    exact ⟨by rw [hA, ht1], by rw [hB, ht2]⟩


/-- C3 (amended): first, for a table whose current data equals the top of
its undo stack of `N ≥ 2` snapshots — the state every snapshot-producing
mutation leaves behind — undo followed by redo succeeds and restores
exactly the pre-undo table data (without that top-of-stack condition this
clause fails, since some mutations do not snapshot — see the
counterexample); and second, for ANY table with `N ≥ 2` snapshots on its
stack, undoing `N - 1` times reaches the oldest retained snapshot —
the stack shrinks to exactly that oldest snapshot and it is installed as
the stored table — after which `can_undo` is false and a further undo
fails. -/
theorem C3_undo_redo_inverse :
    (∀ (dm : DataManager) (tn : String) (d : Table) (l : List Table),
      dictGet dm.tables tn = some d →
      dictGet dm.history.snapshotCache tn = some l →
      2 ≤ l.length →
      l.getLast? = some d →
      (dictGet ((dm.undo (some tn)).1.redo (some tn)).1.tables tn =
        dictGet dm.tables tn) ∧
      ((dm.undo (some tn)).2 = true) ∧
      (((dm.undo (some tn)).1.redo (some tn)).2 = true)) ∧
    (∀ (dm : DataManager) (tn : String) (l : List Table),
      dictGet dm.history.snapshotCache tn = some l →
      2 ≤ l.length →
      (dictGet (undoIter tn (l.length - 1) dm).history.snapshotCache tn =
        some (l.take 1)) ∧
      (dictGet (undoIter tn (l.length - 1) dm).tables tn = l.head?) ∧
      ((undoIter tn (l.length - 1) dm).canUndo (some tn) = false) ∧
      (((undoIter tn (l.length - 1) dm).undo (some tn)).2 = false)) := by
  constructor
  · intro dm tn d l hT hC hN hTop
    obtain ⟨d0, hd0, hs, hT1, hC1, hR1⟩ := dm_undo_spec dm tn l hC hN
    rw [hTop] at hR1
    have hR1a : dictGet (dm.undo (some tn)).1.history.redoStack tn =
        some (((dictGet dm.history.redoStack tn).getD []) ++ [d]) := by
      simpa using hR1
    obtain ⟨d1, hd1, hs2, hT2⟩ := dm_redo_spec (dm.undo (some tn)).1 tn
      (((dictGet dm.history.redoStack tn).getD []) ++ [d]) hR1a (by simp)
    have hd1d : d1 = d := by
      rw [List.getLast?_concat] at hd1
      exact (Option.some_inj.mp hd1).symm
    have hpartA : dictGet ((dm.undo (some tn)).1.redo (some tn)).1.tables tn =
        dictGet dm.tables tn := by
      rw [hT2, hd1d, hT]
    exact ⟨hpartA, hs, hs2⟩
  · intro dm tn l hC hN
    have hk : l.length - 1 = (l.length - 2) + 1 := by omega
    obtain ⟨hA, hB⟩ := undoIter_spec tn (l.length - 2) dm l hC (by omega)
    have hA2 : dictGet (undoIter tn (l.length - 1) dm).history.snapshotCache tn =
        some (l.take 1) := by
      rw [hk]
      exact hA
    have hB2 : dictGet (undoIter tn (l.length - 1) dm).tables tn = l.head? := by
      rw [hk]
      exact hB
    have htake : (l.take 1).length = 1 := by
      rw [List.length_take]
      omega
    have hcu : (undoIter tn (l.length - 1) dm).canUndo (some tn) = false := by
      unfold DataManager.canUndo
      dsimp only [Option.orElse]
      unfold TableHistory.canUndo
      rw [hA2]
      simp [htake]
    have hlast : ((undoIter tn (l.length - 1) dm).undo (some tn)).2 = false := by
      unfold DataManager.undo
      dsimp only [Option.orElse]
      rw [hcu]
      rfl
    exact ⟨hA2, hB2, hcu, hlast⟩


/-- C3 counterexample: a table mutated after its last snapshot (a range
write takes no snapshot): with two snapshots on the stack, undo then redo
both succeed, yet the restored table is the top snapshot, NOT the table
data from just before the undo. -/
theorem C3_counterexample :
    ((dictGet dmC3b.history.snapshotCache "t").map List.length = some 2) ∧
    ((dmC3b.undo (some "t")).2 = true) ∧
    (((dmC3b.undo (some "t")).1.redo (some "t")).2 = true) ∧
    ¬ (dictGet ((dmC3b.undo (some "t")).1.redo (some "t")).1.tables "t" =
        dictGet dmC3b.tables "t") := by
  decide

/-- C3 witness: the restoration clause applied on a store whose table
equals the top of its three-snapshot stack, and the undo-to-exhaustion
clause applied both there and on the counterexample state `dmC3b` — a
table with two snapshots whose current data does NOT equal its top
snapshot, showing that clause needs no such condition. -/
theorem C3_witness :
    ((dictGet ((dmC3w.undo (some "t")).1.redo (some "t")).1.tables "t" =
       dictGet dmC3w.tables "t") ∧
     ((dmC3w.undo (some "t")).2 = true) ∧
     (((dmC3w.undo (some "t")).1.redo (some "t")).2 = true)) ∧
    ((dictGet (undoIter "t" (lC3w.length - 1) dmC3w).history.snapshotCache "t" =
       some (lC3w.take 1)) ∧
     (dictGet (undoIter "t" (lC3w.length - 1) dmC3w).tables "t" = lC3w.head?) ∧
     ((undoIter "t" (lC3w.length - 1) dmC3w).canUndo (some "t") = false) ∧
     (((undoIter "t" (lC3w.length - 1) dmC3w).undo (some "t")).2 = false)) ∧
    ((dictGet (undoIter "t" ([numTable 1 2 3 4, numTable 7 2 3 4].length - 1)
        dmC3b).history.snapshotCache "t" =
       some ([numTable 1 2 3 4, numTable 7 2 3 4].take 1)) ∧
     (dictGet (undoIter "t" ([numTable 1 2 3 4, numTable 7 2 3 4].length - 1)
        dmC3b).tables "t" = [numTable 1 2 3 4, numTable 7 2 3 4].head?) ∧
     ((undoIter "t" ([numTable 1 2 3 4, numTable 7 2 3 4].length - 1)
        dmC3b).canUndo (some "t") = false) ∧
     (((undoIter "t" ([numTable 1 2 3 4, numTable 7 2 3 4].length - 1)
        dmC3b).undo (some "t")).2 = false)) :=
  ⟨C3_undo_redo_inverse.1 dmC3w "t" (numTable 5 6 7 8) lC3w
     (by decide) (by decide) (by decide) (by decide),
   C3_undo_redo_inverse.2 dmC3w "t" lC3w (by decide) (by decide),
   C3_undo_redo_inverse.2 dmC3b "t" [numTable 1 2 3 4, numTable 7 2 3 4]
     (by decide) (by decide)⟩

/-! ### C6: cell-reference round trips -/

/-- The code point of the letter `chr(65+m)`. -/
theorem azChar_toNat (m : Nat) (h : m < 26) : (azChar m).toNat = 65 + m := by
  interval_cases m <;> rfl

/-- The code point of the digit `chr(48+m)`. -/
theorem digChar_toNat (m : Nat) (h : m < 10) : (digChar m).toNat = 48 + m := by
  interval_cases m <;> rfl

/-- Horner step of the letter valuation. -/
theorem lettersVal_append_one (xs : List Char) (c : Char) :
    lettersVal (xs ++ [c]) = lettersVal xs * 26 + (c.toNat - 65 + 1) := by
  simp [lettersVal, List.foldl_append]

/-- Horner step of the digit valuation. -/
theorem digitsVal_append_one (xs : List Char) (c : Char) :
    digitsVal (xs ++ [c]) = digitsVal xs * 10 + (c.toNat - 48) := by
  simp [digitsVal, List.foldl_append]

/-- The column-letter loop is a right inverse of the letter valuation:
the bijective base-26 value of the produced letters is the loop's input. -/
theorem colLettersAux_val : ∀ t : Nat, lettersVal (colLettersAux t) = t := by
  intro t
  induction t using Nat.strong_induction_on with
  | _ t ih =>
    cases t with
    | zero => simp [colLettersAux, lettersVal]
    | succ t' =>
      simp only [colLettersAux]
      rw [lettersVal_append_one,
          ih (t' / 26) (Nat.lt_succ_of_le (Nat.div_le_self t' 26)),
          azChar_toNat (t' % 26) (Nat.mod_lt _ (by norm_num))]
      omega

/-- The decimal rendering is a right inverse of the digit valuation. -/
theorem natDigitsAux_val : ∀ n : Nat, digitsVal (natDigitsAux n) = n := by
  intro n
  induction n using Nat.strong_induction_on with
  | _ n ih =>
    cases n with
    | zero => simp [natDigitsAux, digitsVal]
    | succ n' =>
      simp only [natDigitsAux]
      rw [digitsVal_append_one,
          ih ((n' + 1) / 10) (Nat.div_lt_self (Nat.succ_pos n') (by norm_num)),
          digChar_toNat ((n' + 1) % 10) (Nat.mod_lt _ (by norm_num))]
      omega

/-- Every character the column-letter loop emits is an uppercase letter. -/
theorem colLettersAux_mem :
    ∀ t : Nat, ∀ c ∈ colLettersAux t, 65 ≤ c.toNat ∧ c.toNat ≤ 90 := by
  intro t
  induction t using Nat.strong_induction_on with
  | _ t ih =>
    cases t with
    | zero => intro c hc; simp [colLettersAux] at hc
    | succ t' =>
      intro c hc
      simp only [colLettersAux] at hc
      rw [List.mem_append] at hc
      cases hc with
      | inl h =>
        exact ih (t' / 26) (Nat.lt_succ_of_le (Nat.div_le_self t' 26)) c h
      | inr h =>
        simp at h
        subst h
        have hm : t' % 26 < 26 := Nat.mod_lt _ (by norm_num)
        rw [azChar_toNat _ hm]
        omega

/-- Every character of the decimal rendering is a digit. -/
theorem natDigitsAux_mem :
    ∀ n : Nat, ∀ c ∈ natDigitsAux n, 48 ≤ c.toNat ∧ c.toNat ≤ 57 := by
  intro n
  induction n using Nat.strong_induction_on with
  | _ n ih =>
    cases n with
    | zero => intro c hc; simp [natDigitsAux] at hc
    | succ n' =>
      intro c hc
      simp only [natDigitsAux] at hc
      rw [List.mem_append] at hc
      cases hc with
      | inl h =>
        exact ih ((n' + 1) / 10) (Nat.div_lt_self (Nat.succ_pos n') (by norm_num)) c h
      | inr h =>
        simp at h
        subst h
        have hm : (n' + 1) % 10 < 10 := Nat.mod_lt _ (by norm_num)
        rw [digChar_toNat _ hm]
        omega

/-- A positive input produces at least one letter. -/
theorem colLettersAux_ne_nil (t : Nat) (ht : 0 < t) : colLettersAux t ≠ [] := by
  cases t with
  | zero => omega
  | succ t' => simp [colLettersAux]

/-- A positive number renders to at least one digit. -/
theorem natDigitsAux_ne_nil (n : Nat) (hn : 0 < n) : natDigitsAux n ≠ [] := by
  cases n with
  | zero => omega
  | succ n' => simp [natDigitsAux]

/-- `upper()` fixes every character below the lowercase range. -/
theorem pyUpper_lt (c : Char) (h : c.toNat < 97) : pyUpper c = c := by
  unfold pyUpper
  rw [if_neg]
  intro hc
  omega

/-- `upper()` fixes strings of such characters. -/
theorem map_pyUpper_id (cs : List Char) (h : ∀ c ∈ cs, c.toNat < 97) :
    cs.map pyUpper = cs := by
  induction cs with
  | nil => rfl
  | cons a t ih =>
    rw [List.map_cons, pyUpper_lt a (h a (by simp)),
        ih (fun c hc => h c (by simp [hc]))]

/-- The maximal prefix satisfying `p` of `L ++ d :: D` is `L` when all of
`L` satisfies `p` and `d` does not — how the reference regex splits letters
from digits. -/
theorem takeWhile_LD (p : Char → Bool) :
    ∀ (L : List Char) (d : Char) (D : List Char),
      (∀ c ∈ L, p c = true) → p d = false →
      (L ++ d :: D).takeWhile p = L := by
  intro L
  induction L with
  | nil =>
    intro d D _ hd
    simp [List.takeWhile_cons, hd]
  | cons a t ih =>
    intro d D hL hd
    have ha : p a = true := hL a (by simp)
    simp [List.takeWhile_cons, ha, ih d D (fun c hc => hL c (by simp [hc])) hd]


/-- The forward round trip: parsing the reference produced for any
zero-based `(row, col)` returns exactly `(row, col)`. -/
theorem parse_cell_to_excel (row col : Nat) :
    parse_cell_reference (cell_to_excel row col) =
      some ((row : Int), (col : Int)) := by
  have hLup := colLettersAux_mem (col + 1)
  have hDdig := natDigitsAux_mem (row + 1)
  have hLne : colLettersAux (col + 1) ≠ [] := colLettersAux_ne_nil _ (by omega)
  have hDne : natDigitsAux (row + 1) ≠ [] := natDigitsAux_ne_nil _ (by omega)
  have hmap : (colLettersAux (col + 1) ++ natDigitsAux (row + 1)).map pyUpper =
      colLettersAux (col + 1) ++ natDigitsAux (row + 1) := by
    apply map_pyUpper_id
    intro c hc
    rw [List.mem_append] at hc
    cases hc with
    | inl h => have := hLup c h; omega
    | inr h => have := hDdig c h; omega
  have htw : (colLettersAux (col + 1) ++ natDigitsAux (row + 1)).takeWhile isUpperAZ =
      colLettersAux (col + 1) := by
    cases hD : natDigitsAux (row + 1) with
    | nil => exact absurd hD hDne
    | cons d D' =>
      apply takeWhile_LD
      · intro c hc
        have := hLup c hc
        simp only [isUpperAZ, decide_eq_true_eq]
        omega
      · have hd := hDdig d (by rw [hD]; simp)
        simp only [isUpperAZ, decide_eq_false_iff_not]
        omega
  have hall : (natDigitsAux (row + 1)).all isDigit09 = true := by
    rw [List.all_eq_true]
    intro c hc
    have := hDdig c hc
    simp only [isDigit09, decide_eq_true_eq]
    omega
  have hcond : ((colLettersAux (col + 1)).isEmpty ||
      (natDigitsAux (row + 1)).isEmpty ||
      !(natDigitsAux (row + 1)).all isDigit09) = false := by
    rw [hall]
    simp
    exact ⟨hLne, hDne⟩
  unfold parse_cell_reference cell_to_excel
  dsimp only
  rw [hmap, htw, List.drop_left]
  simp only [hcond, Bool.false_eq_true, if_false]
  rw [colLettersAux_val, natDigitsAux_val]
  simp only [Option.some.injEq, Prod.mk.injEq]
  constructor <;> (push_cast; ring)



/-- C6 counterexample: the string `"A01"` is syntactically valid (it matches
the reference regex and parses, to `(0,0)`), yet printing the parsed cell
back gives `"A1"`, not `"A01"` — so the string-side round trip fails for
syntactically valid but non-canonical references. -/
theorem C6_counterexample :
    (parse_cell_reference "A01" = some (0, 0)) ∧
    ¬ ((parse_cell_reference "A01").map
        (fun p => cell_to_excel p.1.toNat p.2.toNat) = some "A01") := by
  have hA1 : cell_to_excel 0 0 = "A1" := by
    simp [cell_to_excel, colLettersAux, natDigitsAux, azChar, digChar]
  constructor
  · decide
  · intro h
    rw [show parse_cell_reference "A01" = some ((0 : Int), (0 : Int)) from by decide]
      at h
    simp [hA1] at h

/-- C6 (amended): cell addressing round-trips on the index side — for every
row, col ≥ 0, parsing the reference produced by `cell_to_excel` gives back
exactly `(row, col)` — and on the string side for canonical references
(those in the image of `cell_to_excel`: uppercase letters and a row number
without leading zeros), though not for every syntactically valid string
(e.g. `"A01"`); in particular `(0,0)` maps to `"A1"`, `(0,26)` to `"AA1"`,
and `(4,27)` to `"AB5"`, and those strings parse back to those pairs. -/
theorem C6_cell_addressing :
    (∀ row col : Nat, parse_cell_reference (cell_to_excel row col) =
      some ((row : Int), (col : Int))) ∧
    (∀ (row col : Nat) (s : String), s = cell_to_excel row col →
      (parse_cell_reference s).map
        (fun p => cell_to_excel p.1.toNat p.2.toNat) = some s) ∧
    (cell_to_excel 0 0 = "A1") ∧ (cell_to_excel 0 26 = "AA1") ∧
    (cell_to_excel 4 27 = "AB5") ∧
    (parse_cell_reference "A1" = some (0, 0)) ∧
    (parse_cell_reference "AA1" = some (0, 26)) ∧
    (parse_cell_reference "AB5" = some (4, 27)) := by
  refine ⟨parse_cell_to_excel, ?_, ?_, ?_, ?_, by decide, by decide, by decide⟩
  · intro row col s hs
    subst hs
    rw [parse_cell_to_excel]
    simp
  · simp [cell_to_excel, colLettersAux, natDigitsAux, azChar, digChar]
  · simp [cell_to_excel, colLettersAux, natDigitsAux, azChar, digChar]
  · simp [cell_to_excel, colLettersAux, natDigitsAux, azChar, digChar]

/-- C6 witness: the round trip applied at the concrete index pair `(3, 30)`
and at the canonical string `"AB5"`. -/
theorem C6_witness :
    (parse_cell_reference (cell_to_excel 3 30) = some ((3 : Int), (30 : Int))) ∧
    ((parse_cell_reference "AB5").map
      (fun p => cell_to_excel p.1.toNat p.2.toNat) = some "AB5") :=
  ⟨C6_cell_addressing.1 3 30,
   C6_cell_addressing.2.1 4 27 "AB5"
     (by simp [cell_to_excel, colLettersAux, natDigitsAux, azChar, digChar])⟩

end ExcelProgress
